import Mathlib

/-!
Verification of the Transio one-time secret sharing backend.

The Python sources are shallowly embedded:
* Python `str` values are lists of Unicode code points (`PyStr`);
  Python `bytes` values are lists of naturals `< 256`.
* `str.encode('utf-8')` / `bytes.decode('utf-8')` are embedded as a concrete
  UTF-8 codec (`utf8Encode` / `utf8Decode`).
* The `cryptography` library's Fernet is external; it is modelled by its
  functional contract: a token records the encrypting key, the fresh nonce
  and the plaintext bytes, and decryption succeeds exactly when the
  decrypting key equals the encrypting key (forgery and collision
  probabilities are idealized to zero, as authenticated encryption promises).
* The Cosmos DB container is an external collaborator; it is embedded as an
  association list keyed by link id.
-/

/-- A Python `str`: a list of Unicode code points. -/
abbrev PyStr := List Nat

/-- Convert a Lean string literal to a `PyStr` (its code points). -/
def ofString (s : String) : PyStr := s.data.map Char.toNat

/-- A code point that `str.encode('utf-8')` accepts: any scalar value,
i.e. below 0x110000 and not a surrogate. -/
def validCP (c : Nat) : Prop := c < 0xD800 ∨ (0xDFFF < c ∧ c < 0x110000)

instance (c : Nat) : Decidable (validCP c) := by unfold validCP; infer_instance

/-- All code points of the string are Unicode scalar values, so that
`encode('utf-8')` succeeds. -/
def PyStr.encodable (s : PyStr) : Prop := ∀ c ∈ s, validCP c

instance (s : PyStr) : Decidable s.encodable := by
  unfold PyStr.encodable; infer_instance

/-- UTF-8 encoding of a single code point. -/
def charUtf8 (c : Nat) : List Nat :=
  if c < 0x80 then [c]
  else if c < 0x800 then [0xC0 + c / 64, 0x80 + c % 64]
  else if c < 0x10000 then
    [0xE0 + c / 4096, 0x80 + c / 64 % 64, 0x80 + c % 64]
  else
    [0xF0 + c / 0x40000, 0x80 + c / 4096 % 64, 0x80 + c / 64 % 64,
     0x80 + c % 64]

/-- `str.encode('utf-8')`: UTF-8 encoding of a Python string. -/
def utf8Encode (s : PyStr) : List Nat := (s.map charUtf8).flatten

/-- Worker for `utf8Decode`; the fuel argument only bounds the number of
decoded characters (one unit per character) and makes the recursion
structural, so terms evaluate inside the kernel. -/
def utf8DecodeAux : Nat → List Nat → Option PyStr
  | _, [] => some []
  | 0, _ :: _ => none
  | fuel + 1, b :: rest =>
    if b < 0x80 then
      (utf8DecodeAux fuel rest).map (fun t => b :: t)
    else if b < 0xC2 then none
    else if b < 0xE0 then
      match rest with
      | b1 :: r =>
        if 0x80 ≤ b1 ∧ b1 < 0xC0 then
          (utf8DecodeAux fuel r).map
            (fun t => ((b - 0xC0) * 64 + (b1 - 0x80)) :: t)
        else none
      | [] => none
    else if b < 0xF0 then
      match rest with
      | b1 :: b2 :: r =>
        if (if b = 0xE0 then 0xA0 else 0x80) ≤ b1 ∧
           b1 < (if b = 0xED then 0xA0 else 0xC0) ∧
           0x80 ≤ b2 ∧ b2 < 0xC0 then
          (utf8DecodeAux fuel r).map
            (fun t =>
              ((b - 0xE0) * 4096 + (b1 - 0x80) * 64 + (b2 - 0x80)) :: t)
        else none
      | _ => none
    else if b < 0xF5 then
      match rest with
      | b1 :: b2 :: b3 :: r =>
        if (if b = 0xF0 then 0x90 else 0x80) ≤ b1 ∧
           b1 < (if b = 0xF4 then 0x90 else 0xC0) ∧
           0x80 ≤ b2 ∧ b2 < 0xC0 ∧ 0x80 ≤ b3 ∧ b3 < 0xC0 then
          (utf8DecodeAux fuel r).map
            (fun t =>
              ((b - 0xF0) * 0x40000 + (b1 - 0x80) * 4096 +
               (b2 - 0x80) * 64 + (b3 - 0x80)) :: t)
        else none
      | _ => none
    else none

/-- `bytes.decode('utf-8')`: strict UTF-8 decoding (rejects stray or
truncated sequences, overlong forms, surrogates and values above
0x10FFFF), returning `none` where Python raises `UnicodeDecodeError`. -/
def utf8Decode (bs : List Nat) : Option PyStr := utf8DecodeAux bs.length bs

/-! ## Fernet (symbolic model of the `cryptography` library)

A Fernet token is modelled as the triple of the encrypting key, the random
nonce drawn at encryption time, and the encrypted plaintext bytes.
Decryption authenticates the token: it succeeds exactly when the key
matches, reflecting the authenticated-encryption contract (forgery and key
collision probabilities are idealized to zero). -/

/-- The byte strings stored as `encrypted_secret`: either verbatim client
bytes (E2EE mode), or a server-side Fernet token. -/
structure FernetToken where
  key : Nat
  nonce : Nat
  data : List Nat
  deriving DecidableEq, Repr

/-- `Fernet(key).encrypt(data)`. -/
def fernetEncrypt (key nonce : Nat) (data : List Nat) : FernetToken :=
  ⟨key, nonce, data⟩

/-- `Fernet(key).decrypt(token)`: returns the plaintext bytes when the
token authenticates under `key`, `none` (`InvalidToken`) otherwise. -/
def fernetDecrypt (key : Nat) (t : FernetToken) : Option (List Nat) :=
  if t.key = key then some t.data else none

/-- `MultiFernet(keys).decrypt`: tries each key in ring order until one
authenticates. -/
def multiFernetDecrypt (keys : List Nat) (t : FernetToken) :
    Option (List Nat) :=
  match keys with
  | [] => none
  | k :: ks =>
    match fernetDecrypt k t with
    | some bs => some bs
    | none => multiFernetDecrypt ks t

/-- A value of `Secret.encrypted_secret` as the retrieval code sees it:
either raw bytes stored verbatim (E2EE payloads) or a Fernet token.  In the
Python code both are plain `bytes`; the split records which of the two ways
produced them, which the symbolic Fernet model needs. -/
inductive StoredBytes where
  | raw (bs : List Nat)
  | tok (t : FernetToken)
  deriving DecidableEq, Repr

/-- `bytes.decode('utf-8')` on a stored value.  Raw bytes decode by the
UTF-8 codec.  A Fernet token's base64 text form is not modelled, so the
token case is left undecodable; no code path reached by the API decodes a
token (only E2EE records, which always hold raw bytes, are decoded). -/
def StoredBytes.decodeUtf8 : StoredBytes → Option PyStr
  | .raw bs => utf8Decode bs
  | .tok _ => none

/-! ## `backend/app/encryption.py` (single-key iteration)

`cipher_suite = Fernet(Config.MASTER_ENCRYPTION_KEY_BYTES)`; the module is
parameterized by that key (its validation is a startup concern outside
these claims). -/

/-- Failures of `encrypt_secret`: `Exception` when the suite is missing
(not reachable here), `TypeError` for non-`str` input (not representable
in the typed embedding), `ValueError` for the empty string. -/
inductive EncError where
  | notInitialized
  | emptySecret
  deriving DecidableEq, Repr

/-- `encrypt_secret(secret_text)` from `backend/app/encryption.py`:
rejects the empty string (`ValueError`), otherwise UTF-8-encodes and
encrypts with the single master key.  The fresh random nonce of the
underlying Fernet call is passed explicitly. -/
def encryptSecret (key nonce : Nat) (secret_text : PyStr) :
    Except EncError FernetToken :=
  if secret_text = [] then .error .emptySecret
  else .ok (fernetEncrypt key nonce (utf8Encode secret_text))

/-- `decrypt_secret(encrypted_token)` from `backend/app/encryption.py`:
Fernet-decrypts and UTF-8-decodes, returning `none` on `InvalidToken` or
any other failure (including a `UnicodeDecodeError` inside the `try`). -/
def decryptSecret (key : Nat) : StoredBytes → Option PyStr
  | .raw _ => none
  | .tok t => (fernetDecrypt key t).bind utf8Decode

/-! ## `src/backend/config.py` and `src/backend/app/encryption.py`
(MultiFernet iteration, used by claim C9) -/

/-- `Config.MASTER_ENCRYPTION_KEYS`: the validated current key followed by
the previous key when one is configured (`config.py` lines 70–97; the
discard of an *invalid* previous key is a startup concern not modelled —
keys here are the validated ones). -/
def masterEncryptionKeys (current : Nat) (previous : Option Nat) : List Nat :=
  current :: previous.toList

/-- `encrypt_secret` from the MultiFernet iteration: `MultiFernet` always
encrypts with the first (most recent) key; with a single key the module
uses plain `Fernet`, which encrypts with that same key. -/
def encryptSecretMulti (keys : List Nat) (nonce : Nat) (secret_text : PyStr) :
    Except EncError FernetToken :=
  match keys with
  | [] => .error .notInitialized
  | k :: _ =>
    if secret_text = [] then .error .emptySecret
    else .ok (fernetEncrypt k nonce (utf8Encode secret_text))

/-- `decrypt_secret` from the MultiFernet iteration: tries each ring key in
order, then UTF-8-decodes; `none` when no key authenticates. -/
def decryptSecretMulti (keys : List Nat) : StoredBytes → Option PyStr
  | .raw _ => none
  | .tok t => (multiFernetDecrypt keys t).bind utf8Decode

/-! ## Base64 (`base64.b64encode` / `b64decode` / `urlsafe_b64encode`)

Implemented concretely on byte lists so the `models.py` round-trip and the
dummy-payload sizes are computed, not assumed. -/

/-- All elements are bytes (`< 256`). -/
def ByteList (bs : List Nat) : Prop := ∀ b ∈ bs, b < 256

instance (bs : List Nat) : Decidable (ByteList bs) := by
  unfold ByteList; infer_instance

/-- The standard base64 alphabet, as a code-point function on sextets. -/
def b64Char (n : Nat) : Nat :=
  if n < 26 then 65 + n
  else if n < 52 then 71 + n
  else if n < 62 then n - 4
  else if n = 62 then 43
  else 47

/-- Inverse of the standard base64 alphabet. -/
def b64Inv (c : Nat) : Option Nat :=
  if 65 ≤ c ∧ c ≤ 90 then some (c - 65)
  else if 97 ≤ c ∧ c ≤ 122 then some (c - 71)
  else if 48 ≤ c ∧ c ≤ 57 then some (c + 4)
  else if c = 43 then some 62
  else if c = 47 then some 63
  else none

/-- `base64.b64encode(bs).decode('utf-8')`: standard base64 with `=`
padding (code point 61). -/
def b64Encode : List Nat → PyStr
  | [] => []
  | [a] => [b64Char (a / 4), b64Char (a % 4 * 16), 61, 61]
  | [a, b] => [b64Char (a / 4), b64Char (a % 4 * 16 + b / 16),
               b64Char (b % 16 * 4), 61]
  | a :: b :: c :: rest =>
    b64Char (a / 4) :: b64Char (a % 4 * 16 + b / 16) ::
    b64Char (b % 16 * 4 + c / 64) :: b64Char (c % 64) :: b64Encode rest

/-- `base64.b64decode(s.encode('utf-8'))`: inverse of `b64Encode`;
`none` where Python raises `binascii.Error`. -/
def b64Decode : PyStr → Option (List Nat)
  | [] => some []
  | c1 :: c2 :: c3 :: c4 :: rest =>
    (b64Inv c1).bind fun x =>
    (b64Inv c2).bind fun y =>
    if c3 = 61 then
      if c4 = 61 ∧ rest = [] then some [x * 4 + y / 16] else none
    else
      (b64Inv c3).bind fun z =>
      if c4 = 61 then
        if rest = [] then some [x * 4 + y / 16, y % 16 * 16 + z / 4]
        else none
      else
        (b64Inv c4).bind fun w =>
        (b64Decode rest).map
          (fun t => (x * 4 + y / 16) :: (y % 16 * 16 + z / 4) ::
                    (z % 4 * 64 + w) :: t)
  | _ => none

/-- The urlsafe base64 alphabet (`-` and `_` instead of `+` and `/`). -/
def b64UrlChar (n : Nat) : Nat :=
  if n = 62 then 45 else if n = 63 then 95 else b64Char n

/-- `base64.urlsafe_b64encode(bs).decode('utf-8').rstrip('=')`: urlsafe
base64 without the trailing padding (the only place `=` can occur). -/
def b64UrlNoPad : List Nat → PyStr
  | [] => []
  | [a] => [b64UrlChar (a / 4), b64UrlChar (a % 4 * 16)]
  | [a, b] => [b64UrlChar (a / 4), b64UrlChar (a % 4 * 16 + b / 16),
               b64UrlChar (b % 16 * 4)]
  | a :: b :: c :: rest =>
    b64UrlChar (a / 4) :: b64UrlChar (a % 4 * 16 + b / 16) ::
    b64UrlChar (b % 16 * 4 + c / 64) :: b64UrlChar (c % 64) :: b64UrlNoPad rest

/-! ## `backend/app/models.py` -/

/-- An abstract UTC timestamp standing for a Python `datetime`.  The claims
never inspect its fields, only serialize it. -/
abbrev DT := Nat

/-- The text form `datetime.isoformat()` produces.  The Python standard
library guarantees `datetime.fromisoformat(d.isoformat()) == d`; the pair
is modelled by that round-trip contract, keeping the string opaque. -/
structure IsoString where
  ofDT : DT
  deriving DecidableEq, Repr

/-- `datetime.isoformat()` (contract model, see `IsoString`). -/
def DT.isoformat (d : DT) : IsoString := ⟨d⟩

/-- `datetime.fromisoformat(s)` (contract model, see `IsoString`). -/
def fromisoformat (s : IsoString) : DT := s.ofDT

/-- A Python dict with string keys and string values, as the `e2ee`
object of a share request is after validation. -/
abbrev StrDict := List (PyStr × PyStr)

/-- `dict[key]` / `dict.get(key)`: first binding of `key`. -/
def dictGet (d : StrDict) (k : PyStr) : Option PyStr :=
  (d.find? (fun kv => kv.1 = k)).map (·.2)

/-- The `Secret` document model (`models.py`).  The constructor arguments
are the fields; `self.id` is always set to `link_id` by `__init__` and is
reproduced in `to_dict`.  `encrypted_secret` is the raw byte string. -/
structure Secret where
  link_id : PyStr
  encrypted_secret : List Nat
  is_e2ee : Bool
  mime_type : PyStr
  e2ee_data : Option StrDict
  created_at : DT
  deriving DecidableEq, Repr

/-- The Cosmos DB document produced by `Secret.to_dict`: all the fields
that method always writes, plus the optional `e2ee_data`. -/
structure SecretDoc where
  id : PyStr
  link_id : PyStr
  encrypted_secret : PyStr
  is_e2ee : Bool
  mime_type : PyStr
  created_at : IsoString
  e2ee_data : Option StrDict
  deriving DecidableEq, Repr

/-- `Secret.to_dict` (`models.py` lines 24–40): base64-encodes the secret
bytes, isoformats the timestamp, and includes `e2ee_data` only when it is
truthy (neither `None` nor the empty dict). -/
def Secret.to_dict (s : Secret) : SecretDoc :=
  { id := s.link_id
    link_id := s.link_id
    encrypted_secret := b64Encode s.encrypted_secret
    is_e2ee := s.is_e2ee
    mime_type := s.mime_type
    created_at := s.created_at.isoformat
    e2ee_data :=
      match s.e2ee_data with
      | some d => if d = [] then none else some d
      | none => none }

/-- `Secret.from_dict` (`models.py` lines 42–55): base64-decodes the
secret (`none` models the `binascii.Error` Python raises on invalid
base64), parses the timestamp, and reads the remaining fields (`.get`
defaults never fire on a document written by `to_dict`, where the fields
are always present). -/
def Secret.from_dict (data : SecretDoc) : Option Secret :=
  (b64Decode data.encrypted_secret).map fun bytes =>
    { link_id := data.link_id
      encrypted_secret := bytes
      is_e2ee := data.is_e2ee
      mime_type := data.mime_type
      e2ee_data := data.e2ee_data
      created_at := fromisoformat data.created_at }

/-! ## `json.dumps(..., separators=(',', ':'))` serialized byte length

The retrieval endpoint's padding measures
`len(json.dumps(response_data, separators=(',',':')).encode('utf-8'))`.
The response bodies are (at most) two-level JSON objects with string and
boolean leaves, serialized with `ensure_ascii=True` (the `json` module
default).  Only the byte length is needed, so the dump is modelled as a
length function. -/

/-- A JSON value appearing in a response body: a string, a boolean, or a
nested object whose values are strings. -/
inductive JVal where
  | str (s : PyStr)
  | bool (b : Bool)
  | obj (fields : List (PyStr × PyStr))
  deriving DecidableEq, Repr

/-- A JSON response body: an object in insertion order. -/
abbrev JObj := List (PyStr × JVal)

/-- Serialized byte count of one code point inside a JSON string under
`ensure_ascii=True`: `\"` and `\\` and the five short escapes take 2
bytes, other control characters 6 (`\uXXXX`), printable ASCII 1,
other BMP code points 6, astral code points 12 (a surrogate pair). -/
def escCharLen (c : Nat) : Nat :=
  if c = 0x22 ∨ c = 0x5C then 2
  else if c = 8 ∨ c = 9 ∨ c = 10 ∨ c = 12 ∨ c = 13 then 2
  else if c < 0x20 then 6
  else if c ≤ 0x7E then 1
  else if c < 0x10000 then 6
  else 12

/-- Serialized byte count of the characters of a JSON string (without the
surrounding quotes). -/
def escSumLen (s : PyStr) : Nat := (s.map escCharLen).sum

/-- Serialized byte count of a JSON string, quotes included. -/
def strDumpLen (s : PyStr) : Nat := 2 + escSumLen s

/-- Serialized byte count of a JSON value. -/
def valDumpLen : JVal → Nat
  | .str s => strDumpLen s
  | .bool b => if b then 4 else 5
  | .obj fs =>
    2 + (fs.map (fun kv => strDumpLen kv.1 + 1 + strDumpLen kv.2)).sum +
      (fs.length - 1)

/-- Serialized byte count of a JSON object body with
`separators=(',', ':')`: braces, one colon per field, one comma between
fields. -/
def objDumpLen (o : JObj) : Nat :=
  2 + (o.map (fun kv => strDumpLen kv.1 + 1 + valDumpLen kv.2)).sum +
    (o.length - 1)

/-! ## Secret store (external collaborator) and `backend/app/main.py` -/

/-- The record the retrieval handler reads: the fields of `models.Secret`
that `main.py` accesses, with `encrypted_secret` as `StoredBytes` so the
symbolic Fernet tokens can live next to verbatim E2EE bytes. -/
structure StoredSecret where
  link_id : PyStr
  encrypted_secret : StoredBytes
  is_e2ee : Bool
  mime_type : PyStr
  e2ee_data : Option StrDict
  created_at : DT
  deriving DecidableEq, Repr

/-- The secret store: keyed records, modelled as an association list. -/
abbrev Store := List (PyStr × StoredSecret)

/-- Modelled from the spec: `Store.get(id) -> record|NotFound` (§4.2), the
storage lookup behind `retrieve_secret(link_id)` which `main.py` imports
(the checked-in `storage.py` iteration only has the combined
`retrieve_and_delete_secret`). -/
def Store.get (st : Store) (id : PyStr) : Option StoredSecret :=
  (st.find? (fun kv => kv.1 = id)).map (·.2)

/-- Modelled from the spec: `Store.delete(id) -> ok|NotFound` (§4.2),
behind `delete_secret(link_id)` which `main.py` imports; the handler only
logs the boolean, so just the resulting store matters. -/
def Store.delete (st : Store) (id : PyStr) : Store :=
  st.filter (fun kv => ¬ kv.1 = id)

/-- Modelled from the spec: `Store.put(id, record) -> ok` (§4.2), behind
`store_encrypted_secret(...)` as `main.py` calls it; the freshly drawn
high-entropy link id is passed in explicitly, and building the record
mirrors the `models.Secret` constructor. -/
def Store.put (st : Store) (newId : PyStr) (data : StoredBytes)
    (is_e2ee : Bool) (mime_type : PyStr) (e2ee_data : Option StrDict)
    (now : DT) : Store :=
  (newId, ⟨newId, data, is_e2ee, mime_type, e2ee_data, now⟩) :: st

/-- The random draws one call of the retrieval endpoint makes: the
padding filler (`secrets.token_urlsafe`), and for the dummy path the
payload size (`random.randint(100, 1000)`) and the three
`secrets.token_bytes` streams.  Modelled as an adversarially chosen
environment; the constructions below keep each draw inside its
documented range. -/
structure Entropy where
  padSeed : Nat → Nat
  sizeSeed : Nat
  payloadSeed : Nat → Nat
  saltSeed : Nat → Nat
  nonceSeed : Nat → Nat

/-- `secrets.token_bytes(n)`: `n` random bytes from the seed stream. -/
def tokenBytes (n : Nat) (seed : Nat → Nat) : List Nat :=
  (List.range n).map (fun i => seed i % 256)

/-- `secrets.token_urlsafe(n)[:n]`: urlsafe base64 text of `n` random
bytes (about `4n/3` characters), truncated to exactly `n` characters. -/
def tokenUrlsafe (n : Nat) (seed : Nat → Nat) : PyStr :=
  (b64UrlNoPad (tokenBytes n seed)).take n

def kMime : PyStr := ofString "mime"

def kPayload : PyStr := ofString "payload"

def kE2ee : PyStr := ofString "e2ee"

def kSalt : PyStr := ofString "salt"

def kNonce : PyStr := ofString "nonce"

def kPadding : PyStr := ofString "_padding"

def kError : PyStr := ofString "error"

def kLinkId : PyStr := ofString "link_id"

def kMessage : PyStr := ofString "message"

/-- `pad_response_data` (`main.py` lines 136–159): measure the serialized
response, and when it is below the target
`MAX_SECRET_LENGTH_BYTES + 50*1024`, append a `_padding` field holding
`target - current - 50` random urlsafe characters. -/
def padResponseData (maxBytes : Nat) (e : Entropy) (d : JObj) : JObj :=
  let current := objDumpLen d
  let target := maxBytes + 50 * 1024
  if current < target then
    let paddingNeeded := target - current - 50
    if 0 < paddingNeeded then
      d ++ [(kPadding, .str (tokenUrlsafe paddingNeeded e.padSeed))]
    else d
  else d

/-- The dummy body fabricated on a miss (`main.py` lines 211–245):
fixed `mime` and `payload` strings plus an `e2ee` object holding a random
payload of 100–1000 bytes, a 16-byte salt and a 12-byte nonce, each
urlsafe-base64 encoded with the padding stripped. -/
def dummyResponse (e : Entropy) : JObj :=
  let size := 100 + e.sizeSeed % 901
  [(kMime, .str (ofString "text/plain")),
   (kPayload, .str (ofString "Dummy payload for non-existent secret")),
   (kE2ee, .obj
     [(kPayload, b64UrlNoPad (tokenBytes size e.payloadSeed)),
      (kSalt, b64UrlNoPad (tokenBytes 16 e.saltSeed)),
      (kNonce, b64UrlNoPad (tokenBytes 12 e.nonceSeed))])]

/-- Outcome of a handler call: a JSON body with an HTTP status, or an
exception escaping to the framework's generic 500 handler. -/
inductive ApiResult where
  | resp (body : JObj) (status : Nat)
  | exn
  deriving DecidableEq, Repr

/-- `retrieve_secret_api` (`main.py` lines 126–245): look the record up;
E2EE hit → return stored ciphertext and `e2ee` parameters verbatim and
delete; plain hit → decrypt, and on success delete and return the
plaintext, on failure delete and return a padded empty body; miss →
padded dummy body.  Every handler body is passed through
`pad_response_data`.  The random 5–25 ms miss delay is timing, not data,
and is not modelled.  Returns the result together with the store left
behind. -/
def retrieveSecretApi (maxBytes key : Nat) (st : Store) (linkId : PyStr)
    (e : Entropy) : ApiResult × Store :=
  if linkId = [] then
    (.resp [(kError, .str (ofString "Secret ID is required"))] 404, st)
  else
    match st.get linkId with
    | some s =>
      if s.is_e2ee then
        -- building the response dict evaluates the payload decode and the
        -- two `e2ee_data[...]` lookups; any failure raises before delete
        match s.encrypted_secret.decodeUtf8, s.e2ee_data with
        | some payloadText, some d =>
          match dictGet d kSalt, dictGet d kNonce with
          | some salt, some nonce =>
            (.resp (padResponseData maxBytes e
                [(kMime, .str s.mime_type),
                 (kPayload, .str payloadText),
                 (kE2ee, .obj [(kSalt, salt), (kNonce, nonce)])])
              200,
             st.delete linkId)
          | _, _ => (.exn, st)
        | _, _ => (.exn, st)
      else
        match decryptSecret key s.encrypted_secret with
        | some plaintext =>
          (.resp (padResponseData maxBytes e
              [(kMime, .str s.mime_type), (kPayload, .str plaintext)]) 200,
           st.delete linkId)
        | none =>
          (.resp (padResponseData maxBytes e []) 200, st.delete linkId)
    | none =>
      (.resp (padResponseData maxBytes e (dummyResponse e)) 200, st)

/-- A parsed JSON body of `POST /api/share` after `request.get_json()`:
the three fields the handler reads.  The `isinstance` guards cannot fire
in the typed embedding, so payload and mime are already strings and
`e2ee`, when present, is a string-valued dict. -/
structure ShareReq where
  payload : Option PyStr
  mime : Option PyStr
  e2ee : Option StrDict

/-- Decimal digits of a natural number, as a Python string. -/
def natDecStr (n : Nat) : PyStr := (Nat.toDigits 10 n).map Char.toNat

/-- `share_secret_api` (`main.py` lines 35–123): validate the payload and
the optional `e2ee` object, reject bodies longer than
`MAX_SECRET_LENGTH_BYTES` with a 413, then either store the E2EE payload
bytes verbatim or Fernet-encrypt server-side, and answer 201 with the
fresh link id.  `key`/`nonce` feed the Fernet call, `newId` is the fresh
uuid4 and `now` the record timestamp. -/
def shareSecretApi (maxBytes key nonce : Nat) (newId : PyStr) (now : DT)
    (st : Store) (req : ShareReq) : ApiResult × Store :=
  let mime := req.mime.getD (ofString "text/plain")
  match req.payload with
  | none =>
    (.resp [(kError, .str (ofString "Missing 'payload' field in JSON"))] 400,
     st)
  | some p =>
    if p = [] then
      (.resp [(kError, .str (ofString "Missing 'payload' field in JSON"))] 400,
       st)
    else
      let e2eeCheck : Option ApiResult :=
        match req.e2ee with
        | none => none
        | some d =>
          if dictGet d kSalt = none then
            some (.resp [(kError,
              .str (ofString "Missing 'e2ee.salt' field"))] 400)
          else if dictGet d kNonce = none then
            some (.resp [(kError,
              .str (ofString "Missing 'e2ee.nonce' field"))] 400)
          else none
      match e2eeCheck with
      | some r => (r, st)
      | none =>
        if maxBytes < (utf8Encode p).length then
          (.resp [(kError, .str (ofString "Secret exceeds maximum length of "
              ++ natDecStr (maxBytes / 1024) ++ ofString "KB"))] 413, st)
        else
          match req.e2ee with
          | some d =>
            (.resp [(kLinkId, .str newId), (kE2ee, .bool true),
                (kMime, .str mime),
                (kMessage, .str (ofString "Secret stored successfully."))] 201,
             st.put newId (.raw (utf8Encode p)) true mime (some d) now)
          | none =>
            match encryptSecret key nonce p with
            | .ok t =>
              (.resp [(kLinkId, .str newId), (kE2ee, .bool false),
                  (kMime, .str mime),
                  (kMessage, .str (ofString "Secret stored successfully."))]
                201,
               st.put newId (.tok t) false mime none now)
            | .error _ =>
              (.resp [(kError, .str (ofString "Invalid input provided."))] 400,
               st)

/-- Lookup in a JSON object body. -/
def jobjGet (o : JObj) (k : PyStr) : Option JVal :=
  (o.find? (fun kv => kv.1 = k)).map (·.2)

/-- A stored record the retrieval handler can serve without raising: an
E2EE record must decode as UTF-8 and carry `salt` and `nonce` in its
`e2ee_data` dict.  Every record written through `share_secret_api`
satisfies this. -/
def WFRecord (s : StoredSecret) : Bool :=
  !s.is_e2ee ||
    (s.encrypted_secret.decodeUtf8.isSome &&
      match s.e2ee_data with
      | some d => (dictGet d kSalt).isSome && (dictGet d kNonce).isSome
      | none => false)

/-- A fixed entropy environment for concrete evaluations. -/
def cEntropy : Entropy :=
  { padSeed := fun _ => 0, sizeSeed := 0, payloadSeed := fun _ => 0,
    saltSeed := fun _ => 0, nonceSeed := fun _ => 0 }

/-- A store holding one non-E2EE record whose bytes are not a Fernet
token, so server-side decryption fails (`CORRUPTED`). -/
def cCorruptStore : Store :=
  [(ofString "x",
    ⟨ofString "x", .raw [0xFF], false, ofString "text/plain", none, 0⟩)]

/-- A concrete stored record encrypted under key 5, used in concrete
evaluations. -/
def cTokSecret : StoredSecret :=
  ⟨ofString "x", .tok ⟨5, 0, utf8Encode (ofString "s")⟩, false,
   ofString "text/plain", none, 0⟩

/-- A store holding `cTokSecret` under link id `"x"`. -/
def cTokStore : Store := [(ofString "x", cTokSecret)]

/-! ## Theorems -/

theorem utf8DecodeAux_char (k : Nat) (c : Nat) (rest : List Nat)
    (hc : validCP c) :
    utf8DecodeAux (k + 1) (charUtf8 c ++ rest) =
      (utf8DecodeAux k rest).map (fun t => c :: t) := by
  have hval : c < 0xD800 ∨ (0xDFFF < c ∧ c < 0x110000) := hc
  by_cases h1 : c < 0x80
  -- one-byte form
  · have he : charUtf8 c = [c] := by unfold charUtf8; rw [if_pos h1]
    rw [he]
    show utf8DecodeAux (k + 1) (c :: rest) = _
    show (if c < 0x80 then (utf8DecodeAux k rest).map (fun t => c :: t)
          else _) = _
    rw [if_pos h1]
  by_cases h2 : c < 0x800
  -- two-byte form
  ·
    have he : charUtf8 c = [0xC0 + c / 64, 0x80 + c % 64] := by
      unfold charUtf8; rw [if_neg (by omega), if_pos h2]
    rw [he]
    show (if 0xC0 + c / 64 < 0x80 then _
          else if 0xC0 + c / 64 < 0xC2 then none
          else if 0xC0 + c / 64 < 0xE0 then
            if 0x80 ≤ 0x80 + c % 64 ∧ 0x80 + c % 64 < 0xC0 then
              (utf8DecodeAux k rest).map
                (fun t =>
                  ((0xC0 + c / 64 - 0xC0) * 64 + (0x80 + c % 64 - 0x80)) :: t)
            else none
          else _) = _
    rw [if_neg (by omega), if_neg (by omega), if_pos (by omega),
        if_pos (by omega)]
    have harith :
        (0xC0 + c / 64 - 0xC0) * 64 + (0x80 + c % 64 - 0x80) = c := by omega
    simp only [harith]
  by_cases h3 : c < 0x10000
  -- three-byte form
  ·
    have he : charUtf8 c =
        [0xE0 + c / 4096, 0x80 + c / 64 % 64, 0x80 + c % 64] := by
      unfold charUtf8; rw [if_neg (by omega), if_neg (by omega), if_pos h3]
    rw [he]
    show (if 0xE0 + c / 4096 < 0x80 then _
          else if 0xE0 + c / 4096 < 0xC2 then none
          else if 0xE0 + c / 4096 < 0xE0 then _
          else if 0xE0 + c / 4096 < 0xF0 then
            if (if 0xE0 + c / 4096 = 0xE0 then 0xA0 else 0x80) ≤
                 0x80 + c / 64 % 64 ∧
               0x80 + c / 64 % 64 <
                 (if 0xE0 + c / 4096 = 0xED then 0xA0 else 0xC0) ∧
               0x80 ≤ 0x80 + c % 64 ∧ 0x80 + c % 64 < 0xC0 then
              (utf8DecodeAux k rest).map
                (fun t =>
                  ((0xE0 + c / 4096 - 0xE0) * 4096 +
                   (0x80 + c / 64 % 64 - 0x80) * 64 +
                   (0x80 + c % 64 - 0x80)) :: t)
            else none
          else _) = _
    rw [if_neg (by omega), if_neg (by omega), if_neg (by omega),
        if_pos (by omega)]
    have hcond : (if 0xE0 + c / 4096 = 0xE0 then 0xA0 else 0x80) ≤
          0x80 + c / 64 % 64 ∧
        0x80 + c / 64 % 64 <
          (if 0xE0 + c / 4096 = 0xED then 0xA0 else 0xC0) ∧
        0x80 ≤ 0x80 + c % 64 ∧ 0x80 + c % 64 < 0xC0 := by
      refine ⟨?_, ?_, by omega, by omega⟩
      · split <;> omega
      · split <;> omega
    rw [if_pos hcond]
    have harith : (0xE0 + c / 4096 - 0xE0) * 4096 +
        (0x80 + c / 64 % 64 - 0x80) * 64 + (0x80 + c % 64 - 0x80) = c := by
      omega
    simp only [harith]
  -- four-byte form
  · have hmax : c < 0x110000 := by omega
    have he : charUtf8 c =
        [0xF0 + c / 0x40000, 0x80 + c / 4096 % 64, 0x80 + c / 64 % 64,
         0x80 + c % 64] := by
      unfold charUtf8; rw [if_neg (by omega), if_neg (by omega), if_neg (by omega)]
    rw [he]
    show (if 0xF0 + c / 0x40000 < 0x80 then _
          else if 0xF0 + c / 0x40000 < 0xC2 then none
          else if 0xF0 + c / 0x40000 < 0xE0 then _
          else if 0xF0 + c / 0x40000 < 0xF0 then _
          else if 0xF0 + c / 0x40000 < 0xF5 then
            if (if 0xF0 + c / 0x40000 = 0xF0 then 0x90 else 0x80) ≤
                 0x80 + c / 4096 % 64 ∧
               0x80 + c / 4096 % 64 <
                 (if 0xF0 + c / 0x40000 = 0xF4 then 0x90 else 0xC0) ∧
               0x80 ≤ 0x80 + c / 64 % 64 ∧ 0x80 + c / 64 % 64 < 0xC0 ∧
               0x80 ≤ 0x80 + c % 64 ∧ 0x80 + c % 64 < 0xC0 then
              (utf8DecodeAux k rest).map
                (fun t =>
                  ((0xF0 + c / 0x40000 - 0xF0) * 0x40000 +
                   (0x80 + c / 4096 % 64 - 0x80) * 4096 +
                   (0x80 + c / 64 % 64 - 0x80) * 64 +
                   (0x80 + c % 64 - 0x80)) :: t)
            else none
          else none) = _
    rw [if_neg (by omega), if_neg (by omega), if_neg (by omega),
        if_neg (by omega), if_pos (by omega)]
    have hcond : (if 0xF0 + c / 0x40000 = 0xF0 then 0x90 else 0x80) ≤
          0x80 + c / 4096 % 64 ∧
        0x80 + c / 4096 % 64 <
          (if 0xF0 + c / 0x40000 = 0xF4 then 0x90 else 0xC0) ∧
        0x80 ≤ 0x80 + c / 64 % 64 ∧ 0x80 + c / 64 % 64 < 0xC0 ∧
        0x80 ≤ 0x80 + c % 64 ∧ 0x80 + c % 64 < 0xC0 := by
      refine ⟨?_, ?_, by omega, by omega, by omega, by omega⟩
      · split <;> omega
      · split <;> omega
    rw [if_pos hcond]
    have harith : (0xF0 + c / 0x40000 - 0xF0) * 0x40000 +
        (0x80 + c / 4096 % 64 - 0x80) * 4096 +
        (0x80 + c / 64 % 64 - 0x80) * 64 + (0x80 + c % 64 - 0x80) = c := by
      omega
    simp only [harith]

theorem utf8DecodeAux_encode (s : PyStr) : ∀ fuel, s.encodable →
    (utf8Encode s).length ≤ fuel → utf8DecodeAux fuel (utf8Encode s) = some s := by
  induction s with
  | nil => intro fuel _ _; cases fuel <;> rfl
  | cons c s ih =>
    intro fuel hs hf
    have hc : validCP c := hs c (List.mem_cons_self c s)
    have hcs : PyStr.encodable s := fun x hx => hs x (List.mem_cons_of_mem c hx)
    have henc : utf8Encode (c :: s) = charUtf8 c ++ utf8Encode s := by
      simp [utf8Encode]
    have hlen1 : 1 ≤ (charUtf8 c).length := by
      unfold charUtf8
      split
      · simp
      split
      · simp
      split
      · simp
      · simp
    rw [henc] at hf ⊢
    rw [List.length_append] at hf
    obtain ⟨k, rfl⟩ : ∃ k, fuel = k + 1 := ⟨fuel - 1, by omega⟩
    rw [utf8DecodeAux_char k c _ hc]
    rw [ih k hcs (by omega)]
    rfl

/-- UTF-8 round-trip: decoding an encoded string gives it back whenever
every code point is a Unicode scalar value. -/
theorem utf8_roundtrip (s : PyStr) (hs : s.encodable) :
    utf8Decode (utf8Encode s) = some s :=
  utf8DecodeAux_encode s _ hs (Nat.le_refl _)

example : utf8Encode (ofString "aé€") = [0x61, 0xC3, 0xA9, 0xE2, 0x82, 0xAC] := by decide

example : utf8Decode [0x61, 0xC3, 0xA9, 0xE2, 0x82, 0xAC] = some (ofString "aé€") := by decide

example : utf8Decode [0xC0, 0x80] = none := by decide

theorem b64Inv_b64Char : ∀ n, n < 64 → b64Inv (b64Char n) = some n := by decide

theorem b64Char_ne_pad : ∀ n, n < 64 → b64Char n ≠ 61 := by decide

/-- Base64 round-trip on byte lists. -/
theorem b64_roundtrip : ∀ bs : List Nat, ByteList bs →
    b64Decode (b64Encode bs) = some bs := by
  intro bs
  induction bs using b64Encode.induct with
  | case1 => intro _; rfl
  | case2 a =>
    intro h
    have ha : a < 256 := h a (List.mem_singleton.mpr rfl)
    show b64Decode [b64Char (a / 4), b64Char (a % 4 * 16), 61, 61] = _
    rw [b64Decode, b64Inv_b64Char _ (by omega), b64Inv_b64Char _ (by omega)]
    simp only [Option.some_bind]
    have e1 : a / 4 * 4 + a % 4 * 16 / 16 = a := by omega
    rw [e1]
    simp
  | case3 a b =>
    intro h
    have ha : a < 256 := h a (by simp)
    have hb : b < 256 := h b (by simp)
    show b64Decode [b64Char (a / 4), b64Char (a % 4 * 16 + b / 16),
        b64Char (b % 16 * 4), 61] = _
    rw [b64Decode, b64Inv_b64Char _ (by omega), b64Inv_b64Char _ (by omega)]
    simp only [Option.some_bind]
    rw [if_neg (b64Char_ne_pad _ (by omega)), b64Inv_b64Char _ (by omega)]
    simp only [Option.some_bind]
    have h1 : a / 4 * 4 + (a % 4 * 16 + b / 16) / 16 = a := by omega
    have h2 : (a % 4 * 16 + b / 16) % 16 * 16 + b % 16 * 4 / 4 = b := by omega
    rw [h1, h2]
    simp
  | case4 a b c rest ih =>
    intro h
    have ha : a < 256 := h a (by simp)
    have hb : b < 256 := h b (by simp)
    have hc : c < 256 := h c (by simp)
    have hrest : ByteList rest := fun x hx => h x (by simp [hx])
    show b64Decode (b64Char (a / 4) :: b64Char (a % 4 * 16 + b / 16) ::
        b64Char (b % 16 * 4 + c / 64) :: b64Char (c % 64) ::
        b64Encode rest) = _
    rw [b64Decode, b64Inv_b64Char _ (by omega), b64Inv_b64Char _ (by omega)]
    simp only [Option.some_bind]
    rw [if_neg (b64Char_ne_pad _ (by omega)), b64Inv_b64Char _ (by omega)]
    simp only [Option.some_bind]
    rw [if_neg (b64Char_ne_pad _ (by omega)), b64Inv_b64Char _ (by omega)]
    simp only [Option.some_bind]
    rw [ih hrest]
    have h1 : a / 4 * 4 + (a % 4 * 16 + b / 16) / 16 = a := by omega
    have h2 : (a % 4 * 16 + b / 16) % 16 * 16 +
        (b % 16 * 4 + c / 64) / 4 = b := by omega
    have h3 : (b % 16 * 4 + c / 64) % 4 * 64 + c % 64 = c := by omega
    simp [h1, h2, h3]

/-- Length of unpadded urlsafe base64: 4 characters per 3-byte group, plus
2 or 3 characters for a trailing group of 1 or 2 bytes. -/
theorem b64UrlNoPad_length : ∀ bs : List Nat,
    (b64UrlNoPad bs).length =
      4 * (bs.length / 3) +
        (if bs.length % 3 = 0 then 0 else bs.length % 3 + 1) := by
  intro bs
  induction bs using b64UrlNoPad.induct with
  | case1 => rfl
  | case2 a => simp [b64UrlNoPad]
  | case3 a b => simp [b64UrlNoPad]
  | case4 a b c rest ih =>
    show (_ :: _ :: _ :: _ :: b64UrlNoPad rest).length = _
    simp only [List.length_cons, ih]
    split <;> split <;> omega

/-- Every character that `b64UrlNoPad` emits is from the urlsafe alphabet
applied to a sextet. -/
theorem b64UrlNoPad_mem : ∀ bs : List Nat, ByteList bs →
    ∀ ch ∈ b64UrlNoPad bs, ∃ n, n < 64 ∧ ch = b64UrlChar n := by
  intro bs
  induction bs using b64UrlNoPad.induct with
  | case1 => intro _ ch hch; cases hch
  | case2 a =>
    intro h ch hch
    have ha : a < 256 := h a (by simp)
    simp only [b64UrlNoPad, List.mem_cons, List.not_mem_nil, or_false] at hch
    rcases hch with rfl | rfl
    · exact ⟨a / 4, by omega, rfl⟩
    · exact ⟨a % 4 * 16, by omega, rfl⟩
  | case3 a b =>
    intro h ch hch
    have ha : a < 256 := h a (by simp)
    have hb : b < 256 := h b (by simp)
    simp only [b64UrlNoPad, List.mem_cons, List.not_mem_nil, or_false] at hch
    rcases hch with rfl | rfl | rfl
    · exact ⟨a / 4, by omega, rfl⟩
    · exact ⟨a % 4 * 16 + b / 16, by omega, rfl⟩
    · exact ⟨b % 16 * 4, by omega, rfl⟩
  | case4 a b c rest ih =>
    intro h ch hch
    have ha : a < 256 := h a (by simp)
    have hb : b < 256 := h b (by simp)
    have hc : c < 256 := h c (by simp)
    have hrest : ByteList rest := fun x hx => h x (by simp [hx])
    simp only [b64UrlNoPad, List.mem_cons] at hch
    rcases hch with rfl | rfl | rfl | rfl | hch
    · exact ⟨a / 4, by omega, rfl⟩
    · exact ⟨a % 4 * 16 + b / 16, by omega, rfl⟩
    · exact ⟨b % 16 * 4 + c / 64, by omega, rfl⟩
    · exact ⟨c % 64, by omega, rfl⟩
    · exact ih hrest ch hch

example : b64Decode (b64Encode [72, 105, 33, 7]) = some [72, 105, 33, 7] := by
  decide

example : objDumpLen [] = 2 := by decide

example : objDumpLen [(ofString "mime", .str (ofString "text/plain"))] = 21 := by
  decide

theorem Store.get_delete (st : Store) (id : PyStr) :
    (st.delete id).get id = none := by
  unfold Store.get Store.delete
  induction st with
  | nil => rfl
  | cons kv st ih =>
    by_cases h : kv.1 = id
    · simp [List.filter, h, ih]
    · simp [List.filter, List.find?, h, ih]

/-! ## Supporting lemmas -/

theorem tokenBytes_byteList (n : Nat) (seed : Nat → Nat) :
    ByteList (tokenBytes n seed) := by
  intro b hb
  unfold tokenBytes at hb
  simp only [List.mem_map] at hb
  obtain ⟨i, _, rfl⟩ := hb
  exact Nat.mod_lt _ (by omega)

theorem tokenBytes_length (n : Nat) (seed : Nat → Nat) :
    (tokenBytes n seed).length = n := by
  unfold tokenBytes
  simp

theorem escCharLen_urlChar : ∀ m, m < 64 → escCharLen (b64UrlChar m) = 1 := by
  decide

theorem b64UrlChar_ne_zero : ∀ m, m < 64 → b64UrlChar m ≠ 0 := by decide

theorem escSumLen_ones (s : PyStr) (h : ∀ c ∈ s, escCharLen c = 1) :
    escSumLen s = s.length := by
  unfold escSumLen
  induction s with
  | nil => rfl
  | cons c t ih =>
    simp only [List.map_cons, List.sum_cons, List.length_cons,
      h c (List.mem_cons_self c t)]
    rw [ih (fun x hx => h x (List.mem_cons_of_mem c hx))]
    omega

theorem escSumLen_b64Url (bs : List Nat) (h : ByteList bs) :
    escSumLen (b64UrlNoPad bs) = (b64UrlNoPad bs).length := by
  refine escSumLen_ones _ (fun c hc => ?_)
  obtain ⟨m, hm, rfl⟩ := b64UrlNoPad_mem bs h c hc
  exact escCharLen_urlChar m hm

theorem b64UrlNoPad_len_ge (bs : List Nat) :
    bs.length ≤ (b64UrlNoPad bs).length := by
  rw [b64UrlNoPad_length]
  split <;> omega

theorem tokenUrlsafe_length (n : Nat) (seed : Nat → Nat) :
    (tokenUrlsafe n seed).length = n := by
  unfold tokenUrlsafe
  rw [List.length_take]
  have h1 := b64UrlNoPad_len_ge (tokenBytes n seed)
  rw [tokenBytes_length] at h1
  omega

theorem escSumLen_tokenUrlsafe (n : Nat) (seed : Nat → Nat) :
    escSumLen (tokenUrlsafe n seed) = n := by
  have h := escSumLen_ones (tokenUrlsafe n seed) (fun c hc => ?_)
  · rw [h, tokenUrlsafe_length]
  · have hc' : c ∈ b64UrlNoPad (tokenBytes n seed) :=
      List.take_subset _ _ hc
    obtain ⟨m, hm, rfl⟩ :=
      b64UrlNoPad_mem _ (tokenBytes_byteList n seed) c hc'
    exact escCharLen_urlChar m hm

theorem tokenUrlsafe_ne_zero (n : Nat) (seed : Nat → Nat) :
    ∀ ch ∈ tokenUrlsafe n seed, ch ≠ 0 := by
  intro ch hch
  have hc' : ch ∈ b64UrlNoPad (tokenBytes n seed) := List.take_subset _ _ hch
  obtain ⟨m, hm, rfl⟩ :=
    b64UrlNoPad_mem _ (tokenBytes_byteList n seed) ch hc'
  exact b64UrlChar_ne_zero m hm

theorem objDumpLen_append_padding (d : JObj) (f : PyStr) :
    objDumpLen (d ++ [(kPadding, .str f)]) =
      objDumpLen d + escSumLen f + 13 + (if d = [] then 0 else 1) := by
  unfold objDumpLen
  rw [List.map_append, List.sum_append, List.length_append]
  have hone : (List.map (fun kv => strDumpLen kv.1 + 1 + valDumpLen kv.2)
      [(kPadding, JVal.str f)]).sum = 13 + escSumLen f := by
    have hk : escSumLen kPadding = 8 := by decide
    simp [valDumpLen, strDumpLen, hk]
    omega
  rw [hone]
  by_cases hd : d = []
  · subst hd; simp; omega
  · rw [if_neg hd]
    have hlen : 1 ≤ d.length := List.length_pos.mpr hd
    simp only [List.length_cons, List.length_nil]
    omega

/-- What `pad_response_data` does whenever the measured size is more than
50 bytes under the target: it appends a `_padding` field of exactly
`target - current - 50` urlsafe characters, landing the padded serialized
size at `target - 37` for the empty body and `target - 36` otherwise. -/
theorem padResponseData_spec (maxBytes : Nat) (e : Entropy) (d : JObj)
    (h : objDumpLen d + 50 < maxBytes + 50 * 1024) :
    padResponseData maxBytes e d =
      d ++ [(kPadding, .str (tokenUrlsafe
        (maxBytes + 50 * 1024 - objDumpLen d - 50) e.padSeed))] ∧
    objDumpLen (padResponseData maxBytes e d) =
      maxBytes + 50 * 1024 - (if d = [] then 37 else 36) := by
  have hform : padResponseData maxBytes e d =
      d ++ [(kPadding, .str (tokenUrlsafe
        (maxBytes + 50 * 1024 - objDumpLen d - 50) e.padSeed))] := by
    unfold padResponseData
    rw [if_pos (by omega), if_pos (by omega)]
  refine ⟨hform, ?_⟩
  rw [hform, objDumpLen_append_padding, escSumLen_tokenUrlsafe]
  split <;> rename_i hd
  · subst hd
    have h2 : objDumpLen ([] : JObj) = 2 := by decide
    omega
  · have h2 : 2 ≤ objDumpLen d := by unfold objDumpLen; omega
    omega

/-- The dummy body serializes to at most 1487 bytes, far below the
minimum possible padding target of 50 KiB. -/
theorem dummyResponse_size_le (e : Entropy) :
    objDumpLen (dummyResponse e) ≤ 1487 := by
  have hp := escSumLen_b64Url (tokenBytes (100 + e.sizeSeed % 901) e.payloadSeed)
    (tokenBytes_byteList _ _)
  have hs := escSumLen_b64Url (tokenBytes 16 e.saltSeed)
    (tokenBytes_byteList _ _)
  have hn := escSumLen_b64Url (tokenBytes 12 e.nonceSeed)
    (tokenBytes_byteList _ _)
  have hpl := b64UrlNoPad_length (tokenBytes (100 + e.sizeSeed % 901) e.payloadSeed)
  have hsl := b64UrlNoPad_length (tokenBytes 16 e.saltSeed)
  have hnl := b64UrlNoPad_length (tokenBytes 12 e.nonceSeed)
  rw [tokenBytes_length] at hpl hsl hnl
  have k1 : escSumLen kMime = 4 := by decide
  have k2 : escSumLen kPayload = 7 := by decide
  have k3 : escSumLen kE2ee = 4 := by decide
  have k4 : escSumLen kSalt = 4 := by decide
  have k5 : escSumLen kNonce = 5 := by decide
  have k6 : escSumLen (ofString "text/plain") = 10 := by decide
  have k7 : escSumLen (ofString "Dummy payload for non-existent secret") = 37 := by
    decide
  have hsl22 : (b64UrlNoPad (tokenBytes 16 e.saltSeed)).length = 22 := by
    rw [hsl]; decide
  have hnl16 : (b64UrlNoPad (tokenBytes 12 e.nonceSeed)).length = 16 := by
    rw [hnl]; decide
  unfold dummyResponse objDumpLen
  simp only [List.map_cons, List.map_nil, List.sum_cons, List.sum_nil,
    List.length_cons, List.length_nil, valDumpLen, strDumpLen, k1, k2, k3, k4,
    k5, k6, k7, hp, hs, hn, hsl22, hnl16]
  rw [hpl]
  have hb : (if (100 + e.sizeSeed % 901) % 3 = 0 then 0
      else (100 + e.sizeSeed % 901) % 3 + 1) ≤ 3 := by split <;> omega
  have : e.sizeSeed % 901 ≤ 900 := by omega
  omega

/-! ## Claims C2, C9, C10 -/

/-- C2: Encryption round-trip — for every plaintext string whose UTF-8
encoding is between 1 byte and the configured maximum,
`decrypt_secret(encrypt_secret(P))` returns `P` under the same key. -/
theorem c2_encrypt_roundtrip (key nonce maxBytes : Nat) (P : PyStr)
    (hP : P.encodable) (h1 : 1 ≤ (utf8Encode P).length)
    (h2 : (utf8Encode P).length ≤ maxBytes) :
    ∃ t, encryptSecret key nonce P = .ok t ∧
      decryptSecret key (.tok t) = some P := by
  have hne : P ≠ [] := by
    intro h
    subst h
    simp [utf8Encode] at h1
  refine ⟨fernetEncrypt key nonce (utf8Encode P), ?_, ?_⟩
  · unfold encryptSecret
    rw [if_neg hne]
  · show (fernetDecrypt key (fernetEncrypt key nonce (utf8Encode P))).bind
      utf8Decode = some P
    unfold fernetDecrypt fernetEncrypt
    rw [if_pos rfl]
    simp [utf8_roundtrip P hP]

theorem c2_encrypt_roundtrip_witness :
    ((ofString "hi").encodable ∧ 1 ≤ (utf8Encode (ofString "hi")).length ∧
      (utf8Encode (ofString "hi")).length ≤ 102400) ∧
    ∃ t, encryptSecret 7 3 (ofString "hi") = .ok t ∧
      decryptSecret 7 (.tok t) = some (ofString "hi") :=
  ⟨⟨by decide, by decide, by decide⟩,
   c2_encrypt_roundtrip 7 3 102400 (ofString "hi") (by decide) (by decide)
     (by decide)⟩

/-- C9: Key rotation — a ciphertext produced while `kOld` headed the ring
still decrypts after `kOld` is demoted to the previous slot behind a new
current key, and new encryptions under the rotated ring use the new key. -/
theorem c9_key_rotation (kOld kNew nonce nonce2 : Nat) (prev : Option Nat)
    (P Q : PyStr) (hP : P.encodable) (hPne : P ≠ []) (hQne : Q ≠ []) :
    ∃ t, encryptSecretMulti (masterEncryptionKeys kOld prev) nonce P = .ok t ∧
      decryptSecretMulti (masterEncryptionKeys kNew (some kOld)) (.tok t) =
        some P ∧
      ∃ t2, encryptSecretMulti (masterEncryptionKeys kNew (some kOld)) nonce2 Q
          = .ok t2 ∧ t2.key = kNew := by
  refine ⟨fernetEncrypt kOld nonce (utf8Encode P), ?_, ?_,
    fernetEncrypt kNew nonce2 (utf8Encode Q), ?_, rfl⟩
  · show encryptSecretMulti (kOld :: prev.toList) nonce P = _
    show (if P = [] then Except.error EncError.emptySecret
      else Except.ok (fernetEncrypt kOld nonce (utf8Encode P))) = _
    rw [if_neg hPne]
  · show decryptSecretMulti (kNew :: [kOld]) _ = some P
    show (multiFernetDecrypt (kNew :: [kOld])
      (fernetEncrypt kOld nonce (utf8Encode P))).bind utf8Decode = some P
    by_cases hk : kOld = kNew
    · subst hk
      unfold multiFernetDecrypt fernetDecrypt fernetEncrypt
      rw [if_pos rfl]
      simp [utf8_roundtrip P hP]
    · unfold multiFernetDecrypt fernetDecrypt fernetEncrypt
      rw [if_neg hk]
      show (multiFernetDecrypt [kOld]
        (fernetEncrypt kOld nonce (utf8Encode P))).bind utf8Decode = some P
      unfold multiFernetDecrypt fernetDecrypt fernetEncrypt
      rw [if_pos rfl]
      simp [utf8_roundtrip P hP]
  · show encryptSecretMulti (kNew :: [kOld]) nonce2 Q = _
    show (if Q = [] then Except.error EncError.emptySecret
      else Except.ok (fernetEncrypt kNew nonce2 (utf8Encode Q))) = _
    rw [if_neg hQne]

theorem c9_key_rotation_witness :
    ((ofString "a").encodable ∧ ofString "a" ≠ [] ∧ ofString "b" ≠ []) ∧
    ∃ t, encryptSecretMulti (masterEncryptionKeys 1 none) 5 (ofString "a") =
        .ok t ∧
      decryptSecretMulti (masterEncryptionKeys 2 (some 1)) (.tok t) =
        some (ofString "a") ∧
      ∃ t2, encryptSecretMulti (masterEncryptionKeys 2 (some 1)) 6
          (ofString "b") = .ok t2 ∧ t2.key = 2 :=
  ⟨⟨by decide, by decide, by decide⟩,
   c9_key_rotation 1 2 5 6 none (ofString "a") (ofString "b") (by decide)
     (by decide) (by decide)⟩

/-- C10: storage serialization round-trip — for every `Secret` whose
`e2ee_data` is `None` or a non-empty dict, `from_dict (to_dict s)`
restores every field (base64 and isoformat round-trip). -/
theorem c10_dict_roundtrip (s : Secret) (hbytes : ByteList s.encrypted_secret)
    (he : s.e2ee_data = none ∨ ∃ d, s.e2ee_data = some d ∧ d ≠ []) :
    Secret.from_dict (Secret.to_dict s) = some s := by
  cases s with
  | mk lid es ie mt ed ca =>
    simp only at hbytes he
    unfold Secret.to_dict Secret.from_dict
    simp only
    rw [b64_roundtrip _ hbytes]
    rcases he with h | ⟨d, h, hne⟩
    · subst h
      simp [DT.isoformat, fromisoformat]
    · subst h
      simp [DT.isoformat, fromisoformat, hne]

theorem c10_dict_roundtrip_witness :
    (ByteList [1, 2, 250] ∧
      ((none : Option StrDict) = none ∨
        ∃ d, (none : Option StrDict) = some d ∧ d ≠ [])) ∧
    Secret.from_dict (Secret.to_dict
      ⟨ofString "id1", [1, 2, 250], false, ofString "text/plain", none, 5⟩) =
      some ⟨ofString "id1", [1, 2, 250], false, ofString "text/plain", none, 5⟩ :=
  ⟨⟨by decide, Or.inl rfl⟩,
   c10_dict_roundtrip _ (by decide) (Or.inl rfl)⟩

theorem Store.get_cons_self (id : PyStr) (rec : StoredSecret) (st : Store) :
    Store.get ((id, rec) :: st) id = some rec := by
  unfold Store.get
  rw [List.find?_cons_of_pos _ (by simp)]
  rfl

theorem WF_of_get (st : Store) (id : PyStr) (s : StoredSecret)
    (hwf : ∀ kv ∈ st, WFRecord kv.2 = true) (hget : st.get id = some s) :
    WFRecord s = true := by
  unfold Store.get at hget
  cases hf : st.find? (fun kv => kv.1 = id) with
  | none => rw [hf] at hget; cases hget
  | some kv =>
    rw [hf] at hget
    simp only [Option.map_some', Option.some.injEq] at hget
    exact hget ▸ hwf kv (List.mem_of_find?_eq_some hf)

/-- The retrieval handler on a miss: dummy body, padded, store intact. -/
theorem retrieve_miss (maxBytes key : Nat) (st : Store) (id : PyStr)
    (e : Entropy) (hid : id ≠ []) (hget : st.get id = none) :
    retrieveSecretApi maxBytes key st id e =
      (.resp (padResponseData maxBytes e (dummyResponse e)) 200, st) := by
  unfold retrieveSecretApi
  simp only [if_neg hid, hget]

/-- The retrieval handler on a well-formed E2EE hit: stored ciphertext,
salt and nonce returned verbatim, record deleted. -/
theorem retrieve_e2ee_hit (maxBytes key : Nat) (st : Store) (id : PyStr)
    (e : Entropy) (s : StoredSecret) (txt : PyStr) (d : StrDict)
    (sv nv : PyStr) (hid : id ≠ []) (hget : st.get id = some s)
    (he : s.is_e2ee = true) (htxt : s.encrypted_secret.decodeUtf8 = some txt)
    (hd : s.e2ee_data = some d) (hsv : dictGet d kSalt = some sv)
    (hnv : dictGet d kNonce = some nv) :
    retrieveSecretApi maxBytes key st id e =
      (.resp (padResponseData maxBytes e
        [(kMime, .str s.mime_type), (kPayload, .str txt),
         (kE2ee, .obj [(kSalt, sv), (kNonce, nv)])]) 200,
       st.delete id) := by
  unfold retrieveSecretApi
  simp only [if_neg hid, hget, if_pos he, htxt, hd, hsv, hnv]

/-- The retrieval handler on a non-E2EE record that decrypts: plaintext
returned, record deleted. -/
theorem retrieve_plain_hit (maxBytes key : Nat) (st : Store) (id : PyStr)
    (e : Entropy) (s : StoredSecret) (txt : PyStr) (hid : id ≠ [])
    (hget : st.get id = some s) (he : s.is_e2ee = false)
    (hdec : decryptSecret key s.encrypted_secret = some txt) :
    retrieveSecretApi maxBytes key st id e =
      (.resp (padResponseData maxBytes e
        [(kMime, .str s.mime_type), (kPayload, .str txt)]) 200,
       st.delete id) := by
  unfold retrieveSecretApi
  simp only [if_neg hid, hget, he, hdec]
  simp

/-- The retrieval handler on a non-E2EE record that fails to decrypt:
padded empty body, record deleted anyway. -/
theorem retrieve_corrupt (maxBytes key : Nat) (st : Store) (id : PyStr)
    (e : Entropy) (s : StoredSecret) (hid : id ≠ [])
    (hget : st.get id = some s) (he : s.is_e2ee = false)
    (hdec : decryptSecret key s.encrypted_secret = none) :
    retrieveSecretApi maxBytes key st id e =
      (.resp (padResponseData maxBytes e []) 200, st.delete id) := by
  unfold retrieveSecretApi
  simp only [if_neg hid, hget, he, hdec]
  simp

/-- Every retrieval of a non-empty id over a well-formed store answers
200 with a body that went through `pad_response_data`. -/
theorem retrieve_resp_pad_aux (maxBytes key : Nat) (st : Store) (id : PyStr)
    (e : Entropy) (hid : id ≠ [])
    (hwf : ∀ kv ∈ st, WFRecord kv.2 = true) :
    ∃ d, (retrieveSecretApi maxBytes key st id e).1 =
      .resp (padResponseData maxBytes e d) 200 := by
  cases hget : st.get id with
  | none =>
    exact ⟨dummyResponse e, by
      rw [retrieve_miss maxBytes key st id e hid hget]⟩
  | some s =>
    have hs := WF_of_get st id s hwf hget
    by_cases he : s.is_e2ee = true
    · unfold WFRecord at hs
      rw [he] at hs
      simp only [Bool.not_true, Bool.false_or, Bool.and_eq_true] at hs
      obtain ⟨h1, h2⟩ := hs
      obtain ⟨txt, htxt⟩ := Option.isSome_iff_exists.mp h1
      cases hd : s.e2ee_data with
      | none => rw [hd] at h2; cases h2
      | some d =>
        rw [hd] at h2
        simp only [Bool.and_eq_true] at h2
        obtain ⟨hsv', hnv'⟩ := h2
        obtain ⟨sv, hsv⟩ := Option.isSome_iff_exists.mp hsv'
        obtain ⟨nv, hnv⟩ := Option.isSome_iff_exists.mp hnv'
        exact ⟨_, by
          rw [retrieve_e2ee_hit maxBytes key st id e s txt d sv nv hid hget
            he htxt hd hsv hnv]⟩
    · have he' : s.is_e2ee = false := by
        revert he; cases s.is_e2ee <;> simp
      cases hdec : decryptSecret key s.encrypted_secret with
      | some txt =>
        exact ⟨_, by
          rw [retrieve_plain_hit maxBytes key st id e s txt hid hget he' hdec]⟩
      | none =>
        exact ⟨_, by
          rw [retrieve_corrupt maxBytes key st id e s hid hget he' hdec]⟩

/-! ## Claims C1, C3, C5, C6, C7 -/

/-- C1: One-time consumption — when the first retrieval of a live id
succeeds and returns the real stored secret (an E2EE passthrough, or a
non-E2EE record that decrypts), the record is deleted as part of that
retrieval, and every subsequent retrieval of the id takes the miss path,
answering the entropy-only dummy body that cannot contain the original
payload. -/
theorem c1_one_time_consumption (maxBytes key : Nat) (st : Store)
    (id : PyStr) (e1 : Entropy) (s : StoredSecret) (hid : id ≠ [])
    (hget : st.get id = some s) (hwfs : WFRecord s = true)
    (hsucc : s.is_e2ee = true ∨
      (decryptSecret key s.encrypted_secret).isSome) :
    (∃ body, retrieveSecretApi maxBytes key st id e1 =
      (.resp body 200, st.delete id)) ∧
    (st.delete id).get id = none ∧
    ∀ e2, retrieveSecretApi maxBytes key (st.delete id) id e2 =
      (.resp (padResponseData maxBytes e2 (dummyResponse e2)) 200,
       st.delete id) := by
  refine ⟨?_, Store.get_delete st id,
    fun e2 => retrieve_miss _ _ _ _ _ hid (Store.get_delete st id)⟩
  by_cases he : s.is_e2ee = true
  · unfold WFRecord at hwfs
    rw [he] at hwfs
    simp only [Bool.not_true, Bool.false_or, Bool.and_eq_true] at hwfs
    obtain ⟨h1, h2⟩ := hwfs
    obtain ⟨txt, htxt⟩ := Option.isSome_iff_exists.mp h1
    cases hd : s.e2ee_data with
    | none => rw [hd] at h2; cases h2
    | some d =>
      rw [hd] at h2
      simp only [Bool.and_eq_true] at h2
      obtain ⟨sv, hsv⟩ := Option.isSome_iff_exists.mp h2.1
      obtain ⟨nv, hnv⟩ := Option.isSome_iff_exists.mp h2.2
      exact ⟨_, retrieve_e2ee_hit maxBytes key st id e1 s txt d sv nv hid
        hget he htxt hd hsv hnv⟩
  · have he' : s.is_e2ee = false := by
      revert he; cases s.is_e2ee <;> simp
    have hdec : (decryptSecret key s.encrypted_secret).isSome := by
      rcases hsucc with h | h
      · exact absurd h he
      · exact h
    obtain ⟨txt, htxt⟩ := Option.isSome_iff_exists.mp hdec
    exact ⟨_, retrieve_plain_hit maxBytes key st id e1 s txt hid hget he' htxt⟩

theorem c1_one_time_consumption_witness :
    ((ofString "x") ≠ ([] : PyStr) ∧
      Store.get cTokStore (ofString "x") = some cTokSecret ∧
      WFRecord cTokSecret = true ∧
      (decryptSecret 5 cTokSecret.encrypted_secret).isSome) ∧
    ((∃ body, retrieveSecretApi 102400 5 cTokStore (ofString "x") cEntropy =
        (.resp body 200, Store.delete cTokStore (ofString "x"))) ∧
      (Store.delete cTokStore (ofString "x")).get (ofString "x") = none ∧
      ∀ e2, retrieveSecretApi 102400 5 (Store.delete cTokStore (ofString "x"))
        (ofString "x") e2 =
        (.resp (padResponseData 102400 e2 (dummyResponse e2)) 200,
         Store.delete cTokStore (ofString "x"))) :=
  ⟨⟨by decide, by decide, by decide, by decide⟩,
   c1_one_time_consumption 102400 5 cTokStore (ofString "x") cEntropy
     cTokSecret (by decide) (by decide) (by decide) (Or.inr (by decide))⟩

/-- C3: Uniform retrieval status — for every non-empty link id, over any
store whose records the handler can serve, the retrieval endpoint
answers HTTP 200 with a body that went through `pad_response_data`, in
all four cases (non-E2EE hit, E2EE hit, decrypt failure, absent id). -/
theorem c3_uniform_retrieval (maxBytes key : Nat) (st : Store) (id : PyStr)
    (e : Entropy) (hid : id ≠ [])
    (hwf : ∀ kv ∈ st, WFRecord kv.2 = true) :
    ∃ d, (retrieveSecretApi maxBytes key st id e).1 =
      .resp (padResponseData maxBytes e d) 200 :=
  retrieve_resp_pad_aux maxBytes key st id e hid hwf

theorem c3_uniform_retrieval_witness :
    ((ofString "q") ≠ ([] : PyStr) ∧
      (∀ kv ∈ ([] : Store), WFRecord kv.2 = true)) ∧
    ∃ d, (retrieveSecretApi 102400 0 [] (ofString "q") cEntropy).1 =
      .resp (padResponseData 102400 cEntropy d) 200 :=
  ⟨⟨by decide, by simp⟩,
   c3_uniform_retrieval 102400 0 [] (ofString "q") cEntropy (by decide)
     (by simp)⟩

/-- C5 (amended): Corruption handling — a present non-E2EE record whose
ciphertext fails to decrypt is deleted anyway and the endpoint answers
200 with a **padded empty JSON object** (its only field is `_padding`),
which is not the dummy-shaped miss body, though it also carries no
explicit corrupted signal. -/
theorem c5_corruption_handling (maxBytes key : Nat) (st : Store)
    (id : PyStr) (e : Entropy) (s : StoredSecret) (hid : id ≠ [])
    (hget : st.get id = some s) (he : s.is_e2ee = false)
    (hdec : decryptSecret key s.encrypted_secret = none) :
    retrieveSecretApi maxBytes key st id e =
      (.resp (padResponseData maxBytes e []) 200, st.delete id) ∧
    (st.delete id).get id = none :=
  ⟨retrieve_corrupt maxBytes key st id e s hid hget he hdec,
   Store.get_delete st id⟩

set_option maxRecDepth 4000 in
/-- C5 counterexample: on a concrete corrupted record the response body
is the padded empty object — field set `[_padding]` — while the miss
path's dummy body has fields `mime`, `payload`, `e2ee`, `_padding`; the
corrupted response is therefore not "the generic miss-shaped response"
the claim describes. -/
theorem c5_counterexample :
    retrieveSecretApi 102400 0 cCorruptStore (ofString "x") cEntropy =
      (.resp (padResponseData 102400 cEntropy []) 200, []) ∧
    (padResponseData 102400 cEntropy []).map Prod.fst = [kPadding] ∧
    (padResponseData 102400 cEntropy (dummyResponse cEntropy)).map Prod.fst =
      [kMime, kPayload, kE2ee, kPadding] ∧
    ([kPadding] : List PyStr) ≠ [kMime, kPayload, kE2ee, kPadding] := by
  refine ⟨?_, ?_, ?_, by decide⟩
  · have hd : Store.delete cCorruptStore (ofString "x") = [] := by decide
    rw [retrieve_corrupt 102400 0 cCorruptStore (ofString "x") cEntropy
      ⟨ofString "x", .raw [0xFF], false, ofString "text/plain", none, 0⟩
      (by decide) (by decide) (by decide) (by decide), hd]
  · rw [(padResponseData_spec 102400 cEntropy [] (by decide)).1]
    simp
  · rw [(padResponseData_spec 102400 cEntropy (dummyResponse cEntropy)
      (by decide)).1]
    simp [dummyResponse]

theorem c5_corruption_handling_witness :
    ((ofString "x") ≠ ([] : PyStr) ∧
      Store.get cCorruptStore (ofString "x") =
        some ⟨ofString "x", .raw [0xFF], false, ofString "text/plain",
          none, 0⟩ ∧
      (false : Bool) = false ∧
      decryptSecret 0 (.raw [0xFF]) = none) ∧
    (retrieveSecretApi 102400 0 cCorruptStore (ofString "x") cEntropy =
      (.resp (padResponseData 102400 cEntropy []) 200,
       Store.delete cCorruptStore (ofString "x")) ∧
     (Store.delete cCorruptStore (ofString "x")).get (ofString "x") = none) :=
  ⟨⟨by decide, by decide, rfl, by decide⟩,
   c5_corruption_handling 102400 0 cCorruptStore (ofString "x") cEntropy
     ⟨ofString "x", .raw [0xFF], false, ofString "text/plain", none, 0⟩
     (by decide) (by decide) (by decide) (by decide)⟩

/-- C6 (amended): Dummy shape — a miss synthesizes a body with top-level
fields `mime`, `payload`, `e2ee`, where the `e2ee` object carries
`salt` (22 chars) and `nonce` (16 chars) **and additionally a random
`payload` field** of 134–1334 characters; the field set therefore
strictly contains that of a real E2EE hit, whose `e2ee` object has only
`salt` and `nonce`. -/
theorem c6_dummy_shape (maxBytes key : Nat) (st : Store) (id : PyStr)
    (e : Entropy) (hid : id ≠ []) (habs : st.get id = none) :
    retrieveSecretApi maxBytes key st id e =
      (.resp (padResponseData maxBytes e (dummyResponse e)) 200, st) ∧
    (dummyResponse e).map Prod.fst = [kMime, kPayload, kE2ee] ∧
    ∃ pl sa no, jobjGet (dummyResponse e) kE2ee =
        some (.obj [(kPayload, pl), (kSalt, sa), (kNonce, no)]) ∧
      sa.length = 22 ∧ no.length = 16 ∧
      134 ≤ pl.length ∧ pl.length ≤ 1334 := by
  refine ⟨retrieve_miss maxBytes key st id e hid habs,
    by simp [dummyResponse], ?_⟩
  refine ⟨_, _, _, rfl, ?_, ?_, ?_, ?_⟩
  · rw [b64UrlNoPad_length, tokenBytes_length]
    decide
  · rw [b64UrlNoPad_length, tokenBytes_length]
    decide
  · rw [b64UrlNoPad_length, tokenBytes_length]
    have : e.sizeSeed % 901 ≤ 900 := by omega
    split <;> omega
  · rw [b64UrlNoPad_length, tokenBytes_length]
    have : e.sizeSeed % 901 ≤ 900 := by omega
    split <;> omega

theorem c6_dummy_shape_witness :
    ((ofString "q") ≠ ([] : PyStr) ∧
      Store.get [] (ofString "q") = none) ∧
    (retrieveSecretApi 102400 0 [] (ofString "q") cEntropy =
      (.resp (padResponseData 102400 cEntropy (dummyResponse cEntropy)) 200,
       []) ∧
    (dummyResponse cEntropy).map Prod.fst = [kMime, kPayload, kE2ee] ∧
    ∃ pl sa no, jobjGet (dummyResponse cEntropy) kE2ee =
        some (.obj [(kPayload, pl), (kSalt, sa), (kNonce, no)]) ∧
      sa.length = 22 ∧ no.length = 16 ∧
      134 ≤ pl.length ∧ pl.length ≤ 1334) :=
  ⟨⟨by decide, rfl⟩,
   c6_dummy_shape 102400 0 [] (ofString "q") cEntropy (by decide) rfl⟩

set_option maxRecDepth 4000 in
/-- C6 counterexample: on a concrete miss, the synthesized dummy body's
`e2ee` object has field set `[payload, salt, nonce]`, not the
`[salt, nonce]` of a real E2EE hit — the dummy's field set is not
"exactly the fields payload, mime, e2ee.salt, and e2ee.nonce". -/
theorem c6_counterexample :
    (retrieveSecretApi 102400 0 [] (ofString "x") cEntropy).1 =
      .resp (padResponseData 102400 cEntropy (dummyResponse cEntropy)) 200 ∧
    (∃ fs, jobjGet (dummyResponse cEntropy) kE2ee = some (.obj fs) ∧
      fs.map Prod.fst = [kPayload, kSalt, kNonce]) ∧
    ([kPayload, kSalt, kNonce] : List PyStr) ≠ [kSalt, kNonce] := by
  refine ⟨?_, ⟨_, rfl, by decide⟩, by decide⟩
  rw [retrieve_miss 102400 0 [] (ofString "x") cEntropy (by decide) rfl]

/-- C7 (amended): Size normalization — every retrieval response body goes
through `pad_response_data`; whenever the unpadded serialization is more
than 50 bytes below the target `MAX_SECRET_LENGTH_BYTES + 50*1024`, a
`_padding` field of exactly `target - current - 50` random urlsafe
characters (never zero bytes) is appended, landing the serialized size at
`target - 36` (`target - 37` for the empty corrupted-path body) — near,
but not exactly at, the target, and one byte apart between paths. -/
theorem c7_size_normalization (maxBytes key : Nat) (st : Store) (id : PyStr)
    (e : Entropy) (hid : id ≠ [])
    (hwf : ∀ kv ∈ st, WFRecord kv.2 = true) :
    ∃ d, (retrieveSecretApi maxBytes key st id e).1 =
      .resp (padResponseData maxBytes e d) 200 ∧
      (objDumpLen d + 50 < maxBytes + 50 * 1024 →
        padResponseData maxBytes e d =
          d ++ [(kPadding, .str (tokenUrlsafe
            (maxBytes + 50 * 1024 - objDumpLen d - 50) e.padSeed))] ∧
        (tokenUrlsafe (maxBytes + 50 * 1024 - objDumpLen d - 50)
          e.padSeed).length = maxBytes + 50 * 1024 - objDumpLen d - 50 ∧
        (∀ ch ∈ tokenUrlsafe (maxBytes + 50 * 1024 - objDumpLen d - 50)
          e.padSeed, ch ≠ 0) ∧
        objDumpLen (padResponseData maxBytes e d) =
          maxBytes + 50 * 1024 - (if d = [] then 37 else 36)) := by
  obtain ⟨d, hd⟩ := retrieve_resp_pad_aux maxBytes key st id e hid hwf
  exact ⟨d, hd, fun hlt =>
    ⟨(padResponseData_spec maxBytes e d hlt).1,
     tokenUrlsafe_length _ _,
     tokenUrlsafe_ne_zero _ _,
     (padResponseData_spec maxBytes e d hlt).2⟩⟩

theorem c7_size_normalization_witness :
    ((ofString "q") ≠ ([] : PyStr) ∧
      (∀ kv ∈ ([] : Store), WFRecord kv.2 = true)) ∧
    ∃ d, (retrieveSecretApi 102400 0 [] (ofString "q") cEntropy).1 =
      .resp (padResponseData 102400 cEntropy d) 200 ∧
      (objDumpLen d + 50 < 102400 + 50 * 1024 →
        padResponseData 102400 cEntropy d =
          d ++ [(kPadding, .str (tokenUrlsafe
            (102400 + 50 * 1024 - objDumpLen d - 50) cEntropy.padSeed))] ∧
        (tokenUrlsafe (102400 + 50 * 1024 - objDumpLen d - 50)
          cEntropy.padSeed).length = 102400 + 50 * 1024 - objDumpLen d - 50 ∧
        (∀ ch ∈ tokenUrlsafe (102400 + 50 * 1024 - objDumpLen d - 50)
          cEntropy.padSeed, ch ≠ 0) ∧
        objDumpLen (padResponseData 102400 cEntropy d) =
          102400 + 50 * 1024 - (if d = [] then 37 else 36)) :=
  ⟨⟨by decide, by simp⟩,
   c7_size_normalization 102400 0 [] (ofString "q") cEntropy (by decide)
     (by simp)⟩

set_option maxRecDepth 8000 in
/-- C7 counterexample: concretely, the corrupted-path body pads to
153563 serialized bytes and the dummy-path body to 153564, while the
claimed fixed target `MAX_SECRET_LENGTH_BYTES + 50*1024` is 153600 —
the padded size neither reaches the target nor is equal across paths. -/
theorem c7_counterexample :
    (retrieveSecretApi 102400 0 cCorruptStore (ofString "x") cEntropy).1 =
      .resp (padResponseData 102400 cEntropy []) 200 ∧
    (retrieveSecretApi 102400 0 [] (ofString "x") cEntropy).1 =
      .resp (padResponseData 102400 cEntropy (dummyResponse cEntropy)) 200 ∧
    objDumpLen (padResponseData 102400 cEntropy []) = 153563 ∧
    objDumpLen (padResponseData 102400 cEntropy (dummyResponse cEntropy)) =
      153564 ∧
    (153563 : Nat) ≠ 102400 + 50 * 1024 ∧ (153563 : Nat) ≠ 153564 := by
  refine ⟨?_, ?_, ?_, ?_, by decide, by decide⟩
  · rw [retrieve_corrupt 102400 0 cCorruptStore (ofString "x") cEntropy
      ⟨ofString "x", .raw [0xFF], false, ofString "text/plain", none, 0⟩
      (by decide) (by decide) (by decide) (by decide)]
  · rw [retrieve_miss 102400 0 [] (ofString "x") cEntropy (by decide) rfl]
  · rw [(padResponseData_spec 102400 cEntropy [] (by decide)).2]
    decide
  · rw [(padResponseData_spec 102400 cEntropy (dummyResponse cEntropy)
      (by decide)).2]
    rw [if_neg (by decide)]

/-- The share handler in E2EE mode on a valid request: 201 and the
payload bytes stored verbatim with the client's `e2ee` dict. -/
theorem share_e2ee_ok (maxBytes key nonce : Nat) (newId : PyStr) (now : DT)
    (st : Store) (P : PyStr) (mimeOpt : Option PyStr) (d : StrDict)
    (hPne : P ≠ []) (hsv : (dictGet d kSalt).isSome)
    (hnv : (dictGet d kNonce).isSome)
    (hlen : (utf8Encode P).length ≤ maxBytes) :
    shareSecretApi maxBytes key nonce newId now st ⟨some P, mimeOpt, some d⟩ =
      (.resp [(kLinkId, .str newId), (kE2ee, .bool true),
        (kMime, .str (mimeOpt.getD (ofString "text/plain"))),
        (kMessage, .str (ofString "Secret stored successfully."))] 201,
       st.put newId (.raw (utf8Encode P)) true
         (mimeOpt.getD (ofString "text/plain")) (some d) now) := by
  obtain ⟨sv, hsv⟩ := Option.isSome_iff_exists.mp hsv
  obtain ⟨nv, hnv⟩ := Option.isSome_iff_exists.mp hnv
  simp only [shareSecretApi]
  rw [if_neg hPne]
  simp only [hsv, hnv]
  simp only [reduceCtorEq, if_false]
  rw [if_neg (Nat.not_lt.mpr hlen)]

/-- The share handler in server-encrypted mode on a valid request: 201
and a fresh Fernet token stored. -/
theorem share_plain_ok (maxBytes key nonce : Nat) (newId : PyStr) (now : DT)
    (st : Store) (P : PyStr) (mimeOpt : Option PyStr)
    (hPne : P ≠ []) (hlen : (utf8Encode P).length ≤ maxBytes) :
    shareSecretApi maxBytes key nonce newId now st ⟨some P, mimeOpt, none⟩ =
      (.resp [(kLinkId, .str newId), (kE2ee, .bool false),
        (kMime, .str (mimeOpt.getD (ofString "text/plain"))),
        (kMessage, .str (ofString "Secret stored successfully."))] 201,
       st.put newId (.tok (fernetEncrypt key nonce (utf8Encode P))) false
         (mimeOpt.getD (ofString "text/plain")) none now) := by
  have henc : encryptSecret key nonce P =
      .ok (fernetEncrypt key nonce (utf8Encode P)) := by
    unfold encryptSecret
    rw [if_neg hPne]
  simp only [shareSecretApi]
  rw [if_neg hPne]
  rw [if_neg (Nat.not_lt.mpr hlen)]
  simp only [henc]

/-- The share handler rejects an otherwise valid over-long payload with a
413 and leaves the store untouched. -/
theorem share_413 (maxBytes key nonce : Nat) (newId : PyStr) (now : DT)
    (st : Store) (P : PyStr) (mimeOpt : Option PyStr)
    (e2eeOpt : Option StrDict) (hPne : P ≠ [])
    (hval : ∀ d, e2eeOpt = some d →
      (dictGet d kSalt).isSome ∧ (dictGet d kNonce).isSome)
    (hlen : maxBytes < (utf8Encode P).length) :
    shareSecretApi maxBytes key nonce newId now st ⟨some P, mimeOpt, e2eeOpt⟩ =
      (.resp [(kError, .str (ofString "Secret exceeds maximum length of "
        ++ natDecStr (maxBytes / 1024) ++ ofString "KB"))] 413, st) := by
  cases e2eeOpt with
  | none =>
    simp only [shareSecretApi]
    rw [if_neg hPne]
    rw [if_pos hlen]
  | some d =>
    obtain ⟨hsv', hnv'⟩ := hval d rfl
    obtain ⟨sv, hsv⟩ := Option.isSome_iff_exists.mp hsv'
    obtain ⟨nv, hnv⟩ := Option.isSome_iff_exists.mp hnv'
    simp only [shareSecretApi]
    rw [if_neg hPne]
    simp only [hsv, hnv]
    simp only [reduceCtorEq, if_false]
    rw [if_pos hlen]

/-! ## Claims C4 and C8 -/

set_option maxHeartbeats 2000000 in
/-- C4: E2EE passthrough — a secret shared in E2EE mode is stored
verbatim, and its retrieval (under any server key, showing the server
never decrypts it) returns the submitted ciphertext string and the
submitted `salt` and `nonce` unchanged, deleting the record
unconditionally. -/
theorem c4_e2ee_passthrough (maxBytes key nonce key2 : Nat) (newId : PyStr)
    (now : DT) (st : Store) (P : PyStr) (mimeOpt : Option PyStr)
    (d : StrDict) (sv nv : PyStr) (e : Entropy)
    (hP : P.encodable) (hPne : P ≠ [])
    (hlen : (utf8Encode P).length ≤ maxBytes)
    (hsv : dictGet d kSalt = some sv) (hnv : dictGet d kNonce = some nv)
    (hid : newId ≠ []) :
    (∃ body, shareSecretApi maxBytes key nonce newId now st
        ⟨some P, mimeOpt, some d⟩ =
      (.resp body 201,
       st.put newId (.raw (utf8Encode P)) true
         (mimeOpt.getD (ofString "text/plain")) (some d) now)) ∧
    retrieveSecretApi maxBytes key2
        (st.put newId (.raw (utf8Encode P)) true
          (mimeOpt.getD (ofString "text/plain")) (some d) now) newId e =
      (.resp (padResponseData maxBytes e
        [(kMime, .str (mimeOpt.getD (ofString "text/plain"))),
         (kPayload, .str P),
         (kE2ee, .obj [(kSalt, sv), (kNonce, nv)])]) 200,
       (st.put newId (.raw (utf8Encode P)) true
         (mimeOpt.getD (ofString "text/plain")) (some d) now).delete newId) ∧
    ((st.put newId (.raw (utf8Encode P)) true
      (mimeOpt.getD (ofString "text/plain")) (some d) now).delete
        newId).get newId = none := by
  refine ⟨⟨_, share_e2ee_ok maxBytes key nonce newId now st P mimeOpt d hPne
      (by rw [hsv]; rfl) (by rw [hnv]; rfl) hlen⟩, ?_, Store.get_delete _ _⟩
  exact retrieve_e2ee_hit maxBytes key2 _ newId e _ P d sv nv hid
    (Store.get_cons_self newId _ st) rfl
    (by show utf8Decode (utf8Encode P) = some P; exact utf8_roundtrip P hP)
    rfl hsv hnv

set_option maxHeartbeats 1000000 in
theorem c4_e2ee_passthrough_witness :
    ((ofString "ct").encodable ∧ (ofString "ct") ≠ ([] : PyStr) ∧
      (utf8Encode (ofString "ct")).length ≤ 102400 ∧
      dictGet [(kSalt, ofString "s1"), (kNonce, ofString "n1")] kSalt =
        some (ofString "s1") ∧
      dictGet [(kSalt, ofString "s1"), (kNonce, ofString "n1")] kNonce =
        some (ofString "n1") ∧
      (ofString "id9") ≠ ([] : PyStr)) ∧
    ((∃ body, shareSecretApi 102400 1 2 (ofString "id9") 0 []
        ⟨some (ofString "ct"), none,
         some [(kSalt, ofString "s1"), (kNonce, ofString "n1")]⟩ =
      (.resp body 201,
       Store.put [] (ofString "id9") (.raw (utf8Encode (ofString "ct"))) true
         ((none : Option PyStr).getD (ofString "text/plain"))
         (some [(kSalt, ofString "s1"), (kNonce, ofString "n1")]) 0)) ∧
    retrieveSecretApi 102400 3
        (Store.put [] (ofString "id9") (.raw (utf8Encode (ofString "ct"))) true
          ((none : Option PyStr).getD (ofString "text/plain"))
          (some [(kSalt, ofString "s1"), (kNonce, ofString "n1")]) 0)
        (ofString "id9") cEntropy =
      (.resp (padResponseData 102400 cEntropy
        [(kMime, .str ((none : Option PyStr).getD (ofString "text/plain"))),
         (kPayload, .str (ofString "ct")),
         (kE2ee, .obj [(kSalt, ofString "s1"), (kNonce, ofString "n1")])]) 200,
       (Store.put [] (ofString "id9") (.raw (utf8Encode (ofString "ct"))) true
         ((none : Option PyStr).getD (ofString "text/plain"))
         (some [(kSalt, ofString "s1"), (kNonce, ofString "n1")]) 0).delete
           (ofString "id9")) ∧
    ((Store.put [] (ofString "id9") (.raw (utf8Encode (ofString "ct"))) true
      ((none : Option PyStr).getD (ofString "text/plain"))
      (some [(kSalt, ofString "s1"), (kNonce, ofString "n1")]) 0).delete
        (ofString "id9")).get (ofString "id9") = none) :=
  ⟨⟨by decide, by decide, by decide, by decide, by decide, by decide⟩,
   c4_e2ee_passthrough 102400 1 2 3 (ofString "id9") 0 [] (ofString "ct")
     none [(kSalt, ofString "s1"), (kNonce, ofString "n1")]
     (ofString "s1") (ofString "n1") cEntropy (by decide) (by decide)
     (by decide) (by decide) (by decide) (by decide)⟩

/-- C8: Size bound — an otherwise valid share request whose payload
UTF-8-encodes to exactly `MAX_SECRET_LENGTH_BYTES` is accepted with 201
and a record is stored, while any payload of more than
`MAX_SECRET_LENGTH_BYTES` bytes is rejected with 413 and the store is
left exactly as it was (nothing encrypted, nothing stored). -/
theorem c8_size_bound (maxBytes key nonce : Nat) (newId : PyStr) (now : DT)
    (st : Store) (P : PyStr) (mimeOpt : Option PyStr)
    (e2eeOpt : Option StrDict)
    (hval : ∀ d, e2eeOpt = some d →
      (dictGet d kSalt).isSome ∧ (dictGet d kNonce).isSome) :
    ((utf8Encode P).length = maxBytes → 1 ≤ maxBytes →
      ∃ body rec, shareSecretApi maxBytes key nonce newId now st
        ⟨some P, mimeOpt, e2eeOpt⟩ = (.resp body 201, (newId, rec) :: st)) ∧
    (maxBytes < (utf8Encode P).length →
      ∃ msg, shareSecretApi maxBytes key nonce newId now st
        ⟨some P, mimeOpt, e2eeOpt⟩ = (.resp [(kError, .str msg)] 413, st)) := by
  constructor
  · intro hexact hpos
    have hPne : P ≠ [] := by
      intro h
      subst h
      simp [utf8Encode] at hexact
      omega
    have hlen : (utf8Encode P).length ≤ maxBytes := Nat.le_of_eq hexact
    cases e2eeOpt with
    | none =>
      exact ⟨_, _, share_plain_ok maxBytes key nonce newId now st P mimeOpt
        hPne hlen⟩
    | some d =>
      obtain ⟨hsv, hnv⟩ := hval d rfl
      exact ⟨_, _, share_e2ee_ok maxBytes key nonce newId now st P mimeOpt d
        hPne hsv hnv hlen⟩
  · intro hover
    have hPne : P ≠ [] := by
      intro h
      subst h
      simp [utf8Encode] at hover
    exact ⟨_, share_413 maxBytes key nonce newId now st P mimeOpt e2eeOpt
      hPne hval hover⟩

theorem c8_size_bound_witness :
    (∀ d, (none : Option StrDict) = some d →
      (dictGet d kSalt).isSome ∧ (dictGet d kNonce).isSome) ∧
    (((utf8Encode (ofString "abcd")).length = 4 → 1 ≤ 4 →
      ∃ body rec, shareSecretApi 4 0 0 (ofString "i") 0 []
        ⟨some (ofString "abcd"), none, none⟩ =
        (.resp body 201, (ofString "i", rec) :: [])) ∧
    (4 < (utf8Encode (ofString "abcd")).length →
      ∃ msg, shareSecretApi 4 0 0 (ofString "i") 0 []
        ⟨some (ofString "abcd"), none, none⟩ =
        (.resp [(kError, .str msg)] 413, []))) ∧
    ∃ body rec, shareSecretApi 4 0 0 (ofString "i") 0 []
      ⟨some (ofString "abcd"), none, none⟩ =
      (.resp body 201, (ofString "i", rec) :: []) :=
  ⟨(fun d h => nomatch h),
   c8_size_bound 4 0 0 (ofString "i") 0 [] (ofString "abcd") none none
     (fun d h => nomatch h),
   (c8_size_bound 4 0 0 (ofString "i") 0 [] (ofString "abcd") none none
     (fun d h => nomatch h)).1 (by decide) (by decide)⟩
